import Mathlib

/-!
Verification of the safe expression evaluator of `daily_note`
(`src/project/calculator.py`).

The Python program evaluates arithmetic expression strings by parsing them
with the host parser in `eval` mode (`ast.parse(expression, mode='eval')`)
and walking the resulting tree with `SafeExpressionEvaluator._eval_node`,
which whitelists node kinds, one name table (`pi`, `e`) and one function
table (`sqrt`, `sin`, `cos`, `tan`, `log`, `log10`).

Modelling conventions used throughout this file:

* Python floats are modelled as exact rationals (`ℚ`).  Every claim under
  study is about error classification, branch selection, or values that are
  exactly representable (`2 ** 10`, integer-valued results), so rounding of
  the binary format is below the resolution of every statement proved here.
  Overflow/NaN/infinity do not arise in this exact model and no claim
  mentions them.
* The values returned by the host's transcendental routines
  (`math.sqrt`, `math.sin`, …, and `libm` `pow` on non-integer exponents)
  are irrational in general, hence not representable exactly; they are kept
  as an uninterpreted parameter structure `HostMath`.  Their *domain*
  behaviour (exactly when CPython raises `ValueError: math domain error`,
  `ZeroDivisionError`, `TypeError`, or falls back to a complex result) is
  modelled concretely, because that is what the claims are about.
* Python 3 `float.__pow__` delegates a negative base with a non-integral
  exponent to `complex.__pow__` and returns a complex number; complex
  values are modelled as exact rational pairs, with the transcendental
  complex power value again a `HostMath` parameter.
-/

namespace DailyNote

attribute [local semireducible] Rat.add Rat.mul Rat.sub Rat.inv Rat.ofScientific

set_option maxRecDepth 100000

/-- Constant payload of an `ast.Constant` node: the numeric case covers the
Python `int`/`float` (and `bool`) literals that `_eval_node` accepts, the
string case covers string literals, which it rejects by type name. -/
inductive PyConst where
  | num (v : ℚ)
  | str (s : String)
  deriving DecidableEq, Repr

/-- Unary operator of an `ast.UnaryOp` node.  `other` carries the Python
class name of any operator outside `UAdd`/`USub` (for example `Not`,
produced by the `not` keyword, or `Invert`). -/
inductive UOp where
  | uadd
  | usub
  | other (pyName : String)
  deriving DecidableEq, Repr

/-- Binary operator of an `ast.BinOp` node.  `other` carries the Python
class name of any operator outside the six the evaluator dispatches on
(for example `FloorDiv`, `BitOr`). -/
inductive BOp where
  | add
  | sub
  | mult
  | div
  | mod
  | pow
  | other (pyName : String)
  deriving DecidableEq, Repr

/-- Shallow embedding of the Python `ast` expression nodes that can reach
`SafeExpressionEvaluator._eval_node`.  Node kinds the evaluator has no
branch for (`List`, `Dict`, `Compare`, `BoolOp`, bare `Attribute`, …) are
represented so that the defensive catch-all can be exercised; chained
comparisons and n-ary boolean operators are folded to binary shape, which
the evaluator never inspects beyond the class name. -/
inductive PyAst where
  | constant (c : PyConst)
  | name (id : String)
  | unaryOp (op : UOp) (operand : PyAst)
  | binOp (left : PyAst) (op : BOp) (right : PyAst)
  | call (func : PyAst) (args : List PyAst) (keywords : List (String × PyAst))
  | attribute (value : PyAst) (attr : String)
  | listNode (elts : List PyAst)
  | dictNode (pairs : List (PyAst × PyAst))
  | compareNode (left : PyAst) (opName : String) (right : PyAst)
  | boolOpNode (opName : String) (left : PyAst) (right : PyAst)
  deriving Repr

/-- The Python class name of a node, as produced by
`type(node).__name__` in the evaluator's error messages. -/
def PyAst.pyTypeName : PyAst → String
  | .constant _ => "Constant"
  | .name _ => "Name"
  | .unaryOp _ _ => "UnaryOp"
  | .binOp _ _ _ => "BinOp"
  | .call _ _ _ => "Call"
  | .attribute _ _ => "Attribute"
  | .listNode _ => "List"
  | .dictNode _ => "Dict"
  | .compareNode _ _ _ => "Compare"
  | .boolOpNode _ _ _ => "BoolOp"

/-- Runtime value of the evaluator.  `_eval_node` is annotated `-> float`,
but Python 3 `float ** float` can return a `complex`, so the value domain
must include complex numbers (exact rational pairs). -/
inductive PyVal where
  | float (x : ℚ)
  | complex (re im : ℚ)
  deriving DecidableEq, Repr

/-- Exceptions that the modelled fragment can raise, tagged with the kind
Python's `except` clauses discriminate on, carrying the message text. -/
inductive PyExc where
  | zeroDivisionError (msg : String)
  | valueError (msg : String)
  | typeError (msg : String)
  | syntaxError (msg : String)
  deriving DecidableEq, Repr

/-- Classified failure produced by `SafeExpressionEvaluator.eval`'s
`try`/`except` ladder.  `divisionByZero` stands for the re-raised
`ValueError("❌ 错误：除零错误")`, `syntaxError` for
`ValueError("❌ 错误：语法错误，请检查输入")`, `domainError` for
`ValueError("❌ 错误：数学域错误（如负数开平方）")`, and `other m` for a
`ValueError` re-raised unchanged with its original message `m`. -/
inductive EvalError where
  | divisionByZero
  | syntaxError
  | domainError
  | other (msg : String)
  deriving DecidableEq, Repr

/-- Uninterpreted host values: the results of the transcendental routines
the program calls in the cases where they return normally.  The claims
under study never depend on these values, only on the (concretely
modelled) domain conditions under which the host raises instead. -/
structure HostMath where
  sqrtVal : ℚ → ℚ
  sinVal : ℚ → ℚ
  cosVal : ℚ → ℚ
  tanVal : ℚ → ℚ
  logVal : ℚ → ℚ
  log10Val : ℚ → ℚ
  rpowVal : ℚ → ℚ → ℚ
  cpowVal : ℚ × ℚ → ℚ × ℚ → ℚ × ℚ

/-- A host instance with arbitrarily chosen values, used only to
instantiate statements that hold for every host. -/
def host0 : HostMath :=
  ⟨fun _ => 0, fun _ => 0, fun _ => 0, fun _ => 0, fun _ => 0, fun _ => 0,
   fun _ _ => 0, fun _ _ => (0, 0)⟩

/-- The whitelisted unary math function names, as an enumeration standing
for the function objects stored in `allowed_functions`. -/
inductive MathFn where
  | sqrt
  | sin
  | cos
  | tan
  | log
  | log10
  deriving DecidableEq, Repr

/-- The IEEE double closest to π, which is the exact value of `math.pi`. -/
def piFloat : ℚ := 884279719003555 / 281474976710656

/-- The IEEE double closest to e, which is the exact value of `math.e`. -/
def eFloat : ℚ := 6121026514868073 / 2251799813685248

/-- State of a `SafeExpressionEvaluator` instance: the two whitelist
tables built by `__init__`. -/
structure EvaluatorState where
  allowed_functions : List (String × MathFn)
  allowed_names : List (String × ℚ)
  deriving Repr

/-- The tables exactly as `SafeExpressionEvaluator.__init__` builds them. -/
def initState : EvaluatorState :=
  { allowed_functions :=
      [("sqrt", .sqrt), ("sin", .sin), ("cos", .cos), ("tan", .tan),
       ("log", .log), ("log10", .log10)],
    allowed_names := [("pi", piFloat), ("e", eFloat)] }

/-- View of a value as a complex pair, Python's numeric promotion. -/
def PyVal.toPair : PyVal → ℚ × ℚ
  | .float x => (x, 0)
  | .complex a b => (a, b)

/-- Python type name of a value, for `TypeError` messages. -/
def PyVal.pyTypeName : PyVal → String
  | .float _ => "float"
  | .complex _ _ => "complex"

/-- Python unary `-` on a float or complex value. -/
def pyNeg : PyVal → PyVal
  | .float x => .float (-x)
  | .complex a b => .complex (-a) (-b)

/-- Python `+` with complex promotion. -/
def pyAdd : PyVal → PyVal → PyVal
  | .float x, .float y => .float (x + y)
  | a, b => .complex (a.toPair.1 + b.toPair.1) (a.toPair.2 + b.toPair.2)

/-- Python binary `-` with complex promotion. -/
def pySub : PyVal → PyVal → PyVal
  | .float x, .float y => .float (x - y)
  | a, b => .complex (a.toPair.1 - b.toPair.1) (a.toPair.2 - b.toPair.2)

/-- Python `*` with complex promotion. -/
def pyMul : PyVal → PyVal → PyVal
  | .float x, .float y => .float (x * y)
  | a, b =>
    .complex (a.toPair.1 * b.toPair.1 - a.toPair.2 * b.toPair.2)
             (a.toPair.1 * b.toPair.2 + a.toPair.2 * b.toPair.1)

/-- Python `/`: raises `ZeroDivisionError` on an exactly zero divisor
(float or complex), otherwise exact division with complex promotion. -/
def pyDiv : PyVal → PyVal → Except PyExc PyVal
  | .float x, .float y =>
    if y = 0 then .error (.zeroDivisionError "float division by zero")
    else .ok (.float (x / y))
  | a, b =>
    let (c, d) := b.toPair
    if c = 0 ∧ d = 0 then .error (.zeroDivisionError "complex division by zero")
    else
      let (x, y) := a.toPair
      let n := c * c + d * d
      .ok (.complex ((x * c + y * d) / n) ((y * c - x * d) / n))

/-- Python `%` on floats: `ZeroDivisionError("float modulo")` on a zero
divisor, otherwise the remainder whose sign follows the divisor,
`a - b*⌊a/b⌋`; a complex operand has no `%` and raises `TypeError`. -/
def pyMod : PyVal → PyVal → Except PyExc PyVal
  | .float x, .float y =>
    if y = 0 then .error (.zeroDivisionError "float modulo")
    else .ok (.float (x - y * ⌊x / y⌋))
  | a, b =>
    .error (.typeError ("unsupported operand type(s) for %: " ++
      a.pyTypeName ++ " and " ++ b.pyTypeName))

/-- CPython `complex.__pow__` on exact pairs: exponent zero gives one, a
zero base raises `ZeroDivisionError` for a negative or complex exponent
and gives zero for a positive real one, and every other case is the
host's transcendental complex power. -/
def complexPow (h : HostMath) (u v : ℚ × ℚ) : Except PyExc PyVal :=
  if v = (0, 0) then .ok (.complex 1 0)
  else if u = (0, 0) then
    if v.2 ≠ 0 ∨ v.1 < 0 then
      .error (.zeroDivisionError "0.0 to a negative or complex power")
    else .ok (.complex 0 0)
  else
    let z := h.cpowVal u v
    .ok (.complex z.1 z.2)

/-- Python `**` as the evaluator reaches it.  On floats: an integral
exponent is computed exactly (with `ZeroDivisionError` for a zero base and
negative exponent); a non-integral exponent on a negative base is
delegated to complex power — CPython `float_pow` returns a *complex
number* here, it does not raise; a zero base raises on a negative
exponent and gives zero otherwise; a positive base takes the host's real
power value.  Any complex operand goes to `complexPow`. -/
def pyPow (h : HostMath) : PyVal → PyVal → Except PyExc PyVal
  | .float x, .float y =>
    if y.den = 1 then
      if x = 0 ∧ y.num < 0 then
        .error (.zeroDivisionError "0.0 cannot be raised to a negative power")
      else .ok (.float (x ^ y.num))
    else if x < 0 then complexPow h (x, 0) (y, 0)
    else if x = 0 then
      if y < 0 then
        .error (.zeroDivisionError "0.0 cannot be raised to a negative power")
      else .ok (.float 0)
    else .ok (.float (h.rpowVal x y))
  | a, b => complexPow h a.toPair b.toPair

/-- Application of a whitelisted `math` function to an argument value,
with CPython's domain behaviour: every `math` function raises `TypeError`
on a complex argument; `math.sqrt` raises `ValueError("math domain
error")` for a negative argument, `math.log`/`math.log10` for a
non-positive one; `sin`/`cos`/`tan` return normally on every float. -/
def applyMathFn (h : HostMath) : MathFn → PyVal → Except PyExc PyVal
  | _, .complex _ _ => .error (.typeError "must be real number, not complex")
  | .sqrt, .float x =>
    if x < 0 then .error (.valueError "math domain error")
    else .ok (.float (h.sqrtVal x))
  | .sin, .float x => .ok (.float (h.sinVal x))
  | .cos, .float x => .ok (.float (h.cosVal x))
  | .tan, .float x => .ok (.float (h.tanVal x))
  | .log, .float x =>
    if x ≤ 0 then .error (.valueError "math domain error")
    else .ok (.float (h.logVal x))
  | .log10, .float x =>
    if x ≤ 0 then .error (.valueError "math domain error")
    else .ok (.float (h.log10Val x))

/-- Translation of `SafeExpressionEvaluator._eval_node`, branch for
branch and in the source's order of checks and evaluations: constants,
unary operators (operand evaluated before the operator is inspected),
binary operators (both operands evaluated before dispatch), calls, names
against the constant table, and the defensive catch-all naming the
node's class.  The source's `Call` branch first resolves `func_name`
(from a bare name, or through the `math.` sugar which pre-checks the
whitelist, rejecting other qualifiers and call shapes) and then runs one
shared block — whitelist check, arity check, keyword check, argument
evaluation, application; here that shared block is spelled once per
resolution path, preserving the order of the checks and the messages. -/
def evalNode (h : HostMath) (st : EvaluatorState) : PyAst → Except PyExc PyVal
  | .constant c =>
    match c with
    | .num v => .ok (.float v)
    | .str _ => .error (.valueError ("不支持的常量类型：" ++ "str"))
  | .unaryOp op a => do
    let v ← evalNode h st a
    match op with
    | .uadd => pure v
    | .usub => pure (pyNeg v)
    | .other nm => throw (.valueError ("不支持的一元运算符：" ++ nm))
  | .binOp l op r => do
    let lv ← evalNode h st l
    let rv ← evalNode h st r
    match op with
    | .add => pure (pyAdd lv rv)
    | .sub => pure (pySub lv rv)
    | .mult => pure (pyMul lv rv)
    | .div => pyDiv lv rv
    | .mod => pyMod lv rv
    | .pow => pyPow h lv rv
    | .other nm => throw (.valueError ("不支持的二元运算符：" ++ nm))
  | .call (.name id) args kws =>
    match st.allowed_functions.lookup id with
    | none => .error (.valueError ("不支持的函数：" ++ id))
    | some fn =>
      match args with
      | [a] =>
        match kws with
        | _ :: _ => .error (.valueError "不支持关键字参数")
        | [] => (evalNode h st a).bind (applyMathFn h fn)
      | _ => .error (.valueError ("函数 " ++ id ++ " 需要1个参数"))
  | .call (.attribute (.name q) attr) args kws =>
    if q = "math" then
      if (st.allowed_functions.lookup attr).isNone then
        .error (.valueError ("不支持的函数：" ++ attr))
      else
        match st.allowed_functions.lookup attr with
        | none => .error (.valueError ("不支持的函数：" ++ attr))
        | some fn =>
          match args with
          | [a] =>
            match kws with
            | _ :: _ => .error (.valueError "不支持关键字参数")
            | [] => (evalNode h st a).bind (applyMathFn h fn)
          | _ => .error (.valueError ("函数 " ++ attr ++ " 需要1个参数"))
    else .error (.valueError ("不支持的属性访问：" ++ attr))
  | .call (.attribute _ attr) _ _ =>
    .error (.valueError ("不支持的属性访问：" ++ attr))
  | .call _ _ _ => .error (.valueError "不支持的函数调用格式")
  | .name id =>
    match st.allowed_names.lookup id with
    | some v => .ok (.float v)
    | none => .error (.valueError ("未定义的名称：" ++ id))
  | n => .error (.valueError ("不支持的 AST 节点类型：" ++ n.pyTypeName))

/-- Token of the modelled Python expression lexer. -/
inductive Tok where
  | num (v : ℚ)
  | ident (s : String)
  | strTok (s : String)
  | plus
  | minus
  | star
  | dstar
  | slash
  | dslash
  | percent
  | lparen
  | rparen
  | lbrack
  | rbrack
  | lcurl
  | rcurl
  | comma
  | dot
  | colon
  | semi
  | assign
  | eqeq
  | neq
  | ltT
  | gtT
  | leT
  | geT
  deriving DecidableEq, Repr

/-- Numeric value of a decimal digit character. -/
def digitVal (c : Char) : Nat := c.toNat - 48

/-- Split a leading run of decimal digits off a character list. -/
def readDigits : List Char → (List Nat × List Char)
  | [] => ([], [])
  | c :: r =>
    if c.isDigit then
      let (ds, rest) := readDigits r
      (digitVal c :: ds, rest)
    else ([], c :: r)

/-- Value of a digit run read most significant first. -/
def digitsToNat (ds : List Nat) : Nat := ds.foldl (fun a d => a * 10 + d) 0

/-- Finish scanning a numeric literal whose integer digits `intDs` have
been read: optional fraction `.digits` and optional exponent
`e`/`E` `[+|-]` digits, with the exponent digits required to be
non-empty, as in Python's tokenizer.  Returns the exact decimal value. -/
def scanNumber (intDs : List Nat) (cs : List Char) : Except PyExc (ℚ × List Char) :=
  let (fracDs, cs1) :=
    match cs with
    | '.' :: r => readDigits r
    | _ => ([], cs)
  let base : ℚ :=
    (digitsToNat intDs : ℚ) + (digitsToNat fracDs : ℚ) / (10 : ℚ) ^ fracDs.length
  match cs1 with
  | 'e' :: r | 'E' :: r =>
    let (sgn, r1) :=
      match r with
      | '+' :: r2 => ((1 : ℤ), r2)
      | '-' :: r2 => ((-1 : ℤ), r2)
      | _ => ((1 : ℤ), r)
    match readDigits r1 with
    | ([], _) => .error (.syntaxError "invalid decimal literal")
    | (ds, r2) => .ok (base * (10 : ℚ) ^ (sgn * digitsToNat ds), r2)
  | _ => .ok (base, cs1)

/-- Split a leading identifier (letters, digits, underscore) off a
character list. -/
def readIdent : List Char → (List Char × List Char)
  | [] => ([], [])
  | c :: r =>
    if c.isAlphanum || c = '_' then
      let (ds, rest) := readIdent r
      (c :: ds, rest)
    else ([], c :: r)

/-- Read a quoted string literal up to the closing quote `q`; `none`
when the quote is unterminated (a syntax error in Python). -/
def readStrLit (q : Char) : List Char → Option (List Char × List Char)
  | [] => none
  | c :: r =>
    if c = q then some ([], r)
    else
      match readStrLit q r with
      | some (s, rest) => some (c :: s, rest)
      | none => none

/-- The single-quote character. -/
def quote1 : Char := Char.ofNat 39

/-- The double-quote character. -/
def quote2 : Char := Char.ofNat 34

/-- The opening-brace character. -/
def lcurlChar : Char := Char.ofNat 123

/-- The closing-brace character. -/
def rcurlChar : Char := Char.ofNat 125

/-- Modelled from the spec: the tokenizer underlying the parse step
(`ast.parse(expression, mode='eval')`), which the source invokes but does
not define.  It covers the token set reachable through this calculator's
restricted grammar together with the disallowed forms named by the spec
(string literals, list/dict brackets, comparison and boolean operators,
assignments, statement separators); any other character is a syntax
error, as in the host tokenizer.  The fuel argument strictly exceeds the
number of characters and is never exhausted. -/
def lexChars (fuel : Nat) (cs : List Char) : Except PyExc (List Tok) :=
  match fuel with
  | 0 => .error (.syntaxError "internal lexer fuel exhausted")
  | fuel + 1 =>
    match cs with
    | [] => .ok []
    | '*' :: '*' :: r => do pure (.dstar :: (← lexChars fuel r))
    | '/' :: '/' :: r => do pure (.dslash :: (← lexChars fuel r))
    | '=' :: '=' :: r => do pure (.eqeq :: (← lexChars fuel r))
    | '!' :: '=' :: r => do pure (.neq :: (← lexChars fuel r))
    | '<' :: '=' :: r => do pure (.leT :: (← lexChars fuel r))
    | '>' :: '=' :: r => do pure (.geT :: (← lexChars fuel r))
    | c :: r =>
      if c = ' ' || c = Char.ofNat 9 then lexChars fuel r
      else if c.isDigit then do
        let (ds, r1) := readDigits (c :: r)
        let (v, r2) ← scanNumber ds r1
        pure (.num v :: (← lexChars fuel r2))
      else if c.isAlpha || c = '_' then do
        let (id, r1) := readIdent (c :: r)
        pure (.ident (String.mk id) :: (← lexChars fuel r1))
      else if c = '.' then
        match r with
        | d :: _ =>
          if d.isDigit then do
            let (v, r2) ← scanNumber [] (c :: r)
            pure (.num v :: (← lexChars fuel r2))
          else do pure (.dot :: (← lexChars fuel r))
        | [] => .ok [.dot]
      else if c = quote1 || c = quote2 then
        match readStrLit c r with
        | some (s, r1) => do pure (.strTok (String.mk s) :: (← lexChars fuel r1))
        | none => .error (.syntaxError "unterminated string literal")
      else if c = '+' then do pure (.plus :: (← lexChars fuel r))
      else if c = '-' then do pure (.minus :: (← lexChars fuel r))
      else if c = '*' then do pure (.star :: (← lexChars fuel r))
      else if c = '/' then do pure (.slash :: (← lexChars fuel r))
      else if c = '%' then do pure (.percent :: (← lexChars fuel r))
      else if c = '(' then do pure (.lparen :: (← lexChars fuel r))
      else if c = ')' then do pure (.rparen :: (← lexChars fuel r))
      else if c = '[' then do pure (.lbrack :: (← lexChars fuel r))
      else if c = ']' then do pure (.rbrack :: (← lexChars fuel r))
      else if c = lcurlChar then do pure (.lcurl :: (← lexChars fuel r))
      else if c = rcurlChar then do pure (.rcurl :: (← lexChars fuel r))
      else if c = ',' then do pure (.comma :: (← lexChars fuel r))
      else if c = ':' then do pure (.colon :: (← lexChars fuel r))
      else if c = ';' then do pure (.semi :: (← lexChars fuel r))
      else if c = '=' then do pure (.assign :: (← lexChars fuel r))
      else if c = '<' then do pure (.ltT :: (← lexChars fuel r))
      else if c = '>' then do pure (.gtT :: (← lexChars fuel r))
      else .error (.syntaxError "invalid character")

/-- Parsing mode of the recursive-descent parser: one constructor per
precedence level of the Python expression grammar, plus accumulator
modes for the left-associative loops and for call-argument, list and
dict element lists. -/
inductive PMode where
  | orE
  | andE
  | notE
  | cmpE
  | arith
  | term
  | factor
  | power
  | atomE
  | atom
  | orRest (acc : PyAst)
  | andRest (acc : PyAst)
  | cmpRest (acc : PyAst)
  | arithRest (acc : PyAst)
  | termRest (acc : PyAst)
  | trailers (acc : PyAst)
  | callArgs (func : PyAst) (args : List PyAst) (kws : List (String × PyAst))
  | listElts (elts : List PyAst)
  | dictItems (pairs : List (PyAst × PyAst))

/-- Modelled from the spec: the parse step (`ast.parse` in `eval` mode),
which the source invokes but does not define.  One structurally
recursive function over fuel, with one mode per precedence level of the
spec's grammar (sum, term, power right-associative through unary, unary,
primary with call and attribute trailers) extended with the host forms
the spec names as rejected later (comparisons, boolean operators, list
and dict displays, string literals, keyword arguments); chained
comparisons and n-ary boolean operators are folded to nested binary
nodes, which the evaluator never inspects beyond the class name.  The
fuel is chosen large enough in `pyParse` that it is never exhausted. -/
def parseP (fuel : Nat) (m : PMode) (ts : List Tok) : Except PyExc (PyAst × List Tok) :=
  match fuel with
  | 0 => .error (.syntaxError "internal parser fuel exhausted")
  | fuel + 1 =>
    match m with
    | .orE => do
      let (a, ts1) ← parseP fuel .andE ts
      parseP fuel (.orRest a) ts1
    | .orRest acc =>
      match ts with
      | .ident "or" :: r => do
        let (b, ts1) ← parseP fuel .andE r
        parseP fuel (.orRest (.boolOpNode "Or" acc b)) ts1
      | _ => .ok (acc, ts)
    | .andE => do
      let (a, ts1) ← parseP fuel .notE ts
      parseP fuel (.andRest a) ts1
    | .andRest acc =>
      match ts with
      | .ident "and" :: r => do
        let (b, ts1) ← parseP fuel .notE r
        parseP fuel (.andRest (.boolOpNode "And" acc b)) ts1
      | _ => .ok (acc, ts)
    | .notE =>
      match ts with
      | .ident "not" :: r => do
        let (a, ts1) ← parseP fuel .notE r
        .ok (.unaryOp (.other "Not") a, ts1)
      | _ => parseP fuel .cmpE ts
    | .cmpE => do
      let (a, ts1) ← parseP fuel .arith ts
      parseP fuel (.cmpRest a) ts1
    | .cmpRest acc =>
      match ts with
      | .ltT :: r => do
        let (b, ts1) ← parseP fuel .arith r
        parseP fuel (.cmpRest (.compareNode acc "Lt" b)) ts1
      | .gtT :: r => do
        let (b, ts1) ← parseP fuel .arith r
        parseP fuel (.cmpRest (.compareNode acc "Gt" b)) ts1
      | .leT :: r => do
        let (b, ts1) ← parseP fuel .arith r
        parseP fuel (.cmpRest (.compareNode acc "LtE" b)) ts1
      | .geT :: r => do
        let (b, ts1) ← parseP fuel .arith r
        parseP fuel (.cmpRest (.compareNode acc "GtE" b)) ts1
      | .eqeq :: r => do
        let (b, ts1) ← parseP fuel .arith r
        parseP fuel (.cmpRest (.compareNode acc "Eq" b)) ts1
      | .neq :: r => do
        let (b, ts1) ← parseP fuel .arith r
        parseP fuel (.cmpRest (.compareNode acc "NotEq" b)) ts1
      | _ => .ok (acc, ts)
    | .arith => do
      let (a, ts1) ← parseP fuel .term ts
      parseP fuel (.arithRest a) ts1
    | .arithRest acc =>
      match ts with
      | .plus :: r => do
        let (b, ts1) ← parseP fuel .term r
        parseP fuel (.arithRest (.binOp acc .add b)) ts1
      | .minus :: r => do
        let (b, ts1) ← parseP fuel .term r
        parseP fuel (.arithRest (.binOp acc .sub b)) ts1
      | _ => .ok (acc, ts)
    | .term => do
      let (a, ts1) ← parseP fuel .factor ts
      parseP fuel (.termRest a) ts1
    | .termRest acc =>
      match ts with
      | .star :: r => do
        let (b, ts1) ← parseP fuel .factor r
        parseP fuel (.termRest (.binOp acc .mult b)) ts1
      | .slash :: r => do
        let (b, ts1) ← parseP fuel .factor r
        parseP fuel (.termRest (.binOp acc .div b)) ts1
      | .percent :: r => do
        let (b, ts1) ← parseP fuel .factor r
        parseP fuel (.termRest (.binOp acc .mod b)) ts1
      | .dslash :: r => do
        let (b, ts1) ← parseP fuel .factor r
        parseP fuel (.termRest (.binOp acc (.other "FloorDiv") b)) ts1
      | _ => .ok (acc, ts)
    | .factor =>
      match ts with
      | .plus :: r => do
        let (a, ts1) ← parseP fuel .factor r
        .ok (.unaryOp .uadd a, ts1)
      | .minus :: r => do
        let (a, ts1) ← parseP fuel .factor r
        .ok (.unaryOp .usub a, ts1)
      | _ => parseP fuel .power ts
    | .power => do
      let (a, ts1) ← parseP fuel .atomE ts
      match ts1 with
      | .dstar :: r => do
        let (b, ts2) ← parseP fuel .factor r
        .ok (.binOp a .pow b, ts2)
      | _ => .ok (a, ts1)
    | .atomE => do
      let (a, ts1) ← parseP fuel .atom ts
      parseP fuel (.trailers a) ts1
    | .trailers acc =>
      match ts with
      | .dot :: .ident s :: r => parseP fuel (.trailers (.attribute acc s)) r
      | .dot :: _ => .error (.syntaxError "invalid syntax")
      | .lparen :: r => do
        let (c, ts1) ← parseP fuel (.callArgs acc [] []) r
        parseP fuel (.trailers c) ts1
      | _ => .ok (acc, ts)
    | .callArgs func args kws =>
      match ts with
      | .rparen :: r => .ok (.call func args.reverse kws.reverse, r)
      | .ident s :: .assign :: r => do
        let (v, ts1) ← parseP fuel .orE r
        match ts1 with
        | .comma :: r2 => parseP fuel (.callArgs func args ((s, v) :: kws)) r2
        | .rparen :: r2 => .ok (.call func args.reverse ((s, v) :: kws).reverse, r2)
        | _ => .error (.syntaxError "invalid syntax")
      | _ =>
        match kws with
        | _ :: _ => .error (.syntaxError "positional argument follows keyword argument")
        | [] => do
          let (v, ts1) ← parseP fuel .orE ts
          match ts1 with
          | .comma :: r2 => parseP fuel (.callArgs func (v :: args) []) r2
          | .rparen :: r2 => .ok (.call func (v :: args).reverse [], r2)
          | _ => .error (.syntaxError "invalid syntax")
    | .listElts elts =>
      match ts with
      | .rbrack :: r => .ok (.listNode elts.reverse, r)
      | _ => do
        let (v, ts1) ← parseP fuel .orE ts
        match ts1 with
        | .comma :: r2 => parseP fuel (.listElts (v :: elts)) r2
        | .rbrack :: r2 => .ok (.listNode (v :: elts).reverse, r2)
        | _ => .error (.syntaxError "invalid syntax")
    | .dictItems pairs =>
      match ts with
      | .rcurl :: r => .ok (.dictNode pairs.reverse, r)
      | _ => do
        let (k, ts1) ← parseP fuel .orE ts
        match ts1 with
        | .colon :: r1 => do
          let (v, ts2) ← parseP fuel .orE r1
          match ts2 with
          | .comma :: r2 => parseP fuel (.dictItems ((k, v) :: pairs)) r2
          | .rcurl :: r2 => .ok (.dictNode ((k, v) :: pairs).reverse, r2)
          | _ => .error (.syntaxError "invalid syntax")
        | _ => .error (.syntaxError "invalid syntax")
    | .atom =>
      match ts with
      | .num v :: r => .ok (.constant (.num v), r)
      | .strTok s :: r => .ok (.constant (.str s), r)
      | .ident s :: r =>
        if s = "and" || s = "or" || s = "not" then .error (.syntaxError "invalid syntax")
        else .ok (.name s, r)
      | .lparen :: r => do
        let (a, ts1) ← parseP fuel .orE r
        match ts1 with
        | .rparen :: r2 => .ok (a, r2)
        | _ => .error (.syntaxError "invalid syntax")
      | .lbrack :: r => parseP fuel (.listElts []) r
      | .lcurl :: r => parseP fuel (.dictItems []) r
      | _ => .error (.syntaxError "invalid syntax")

/-- Modelled from the spec: `ast.parse(expression, mode='eval')` — lex,
parse one full expression, and reject leftover input (which is how
assignments, statement separators and multiple statements fail in
`eval` mode). -/
def pyParse (s : String) : Except PyExc PyAst := do
  let ts ← lexChars (s.length + 1) s.data
  let (a, rest) ← parseP (32 * (ts.length + 2)) .orE ts
  match rest with
  | [] => pure a
  | _ => throw (.syntaxError "invalid syntax")

/-- Substring test on character lists, used to model Python's
`"math domain error" in str(e).lower()`. -/
def charsContain (hay pat : List Char) : Bool :=
  match hay with
  | [] => pat.isEmpty
  | _ :: t => List.isPrefixOf pat hay || charsContain t pat

/-- Python `pat in s` on strings. -/
def strContains (s pat : String) : Bool :=
  charsContain s.data pat.data

/-- Python `str.lower` restricted to the ASCII range, which covers every
message the evaluator compares (the lowering is applied to messages that
are either the host's all-lowercase English ones or Chinese text, which
lowering leaves unchanged). -/
def strLower (s : String) : String :=
  String.mk (s.data.map Char.toLower)

/-- The `try`/`except` ladder of `SafeExpressionEvaluator.eval`:
`ZeroDivisionError` becomes the division-by-zero message,
`SyntaxError`/`TypeError` the syntax message, a `ValueError` whose
lower-cased message contains `"math domain error"` the domain message,
and any other `ValueError` is re-raised unchanged. -/
def classify : PyExc → EvalError
  | .zeroDivisionError _ => .divisionByZero
  | .syntaxError _ => .syntaxError
  | .typeError _ => .syntaxError
  | .valueError m =>
    if strContains (strLower m) "math domain error" then .domainError
    else .other m

/-- The preprocessing line of `SafeExpressionEvaluator.eval`:
`expression.replace('^', '**')`.  For a one-character pattern, Python's
`str.replace` is exactly this character-by-character expansion. -/
def pyReplaceCaret (s : String) : String :=
  String.mk (s.data.foldr (fun c acc => if c = '^' then '*' :: '*' :: acc else c :: acc) [])

/-- Translation of the method `SafeExpressionEvaluator.eval`, with the
instance state threaded explicitly: preprocess `^` to `**`, parse, walk
the tree with `_eval_node`, and classify any raised exception.  The
method body contains no assignment to `self` or to the tables, so the
returned state is the incoming state. -/
def safeEval (h : HostMath) (st : EvaluatorState) (expression : String) :
    Except EvalError PyVal × EvaluatorState :=
  (match (do evalNode h st (← pyParse (pyReplaceCaret expression)) : Except PyExc PyVal) with
   | .ok v => .ok v
   | .error e => .error (classify e),
   st)

/-- Evaluation of an expression string by a freshly constructed
`SafeExpressionEvaluator`, as `Calculator` uses it. -/
def pyEval (h : HostMath) (s : String) : Except EvalError PyVal :=
  (safeEval h initState s).1

/-- The body of `eval` from the `ast.parse` call on: what evaluation does
to the already-preprocessed text.  `pyEval` is this composed with the
caret rewriting. -/
def pyEvalNoCaret (h : HostMath) (s : String) : Except EvalError PyVal :=
  match (do evalNode h initState (← pyParse s) : Except PyExc PyVal) with
  | .ok v => .ok v
  | .error e => .error (classify e)

/-- Evaluation of an already-parsed node by a freshly constructed
evaluator, with the raised exception classified by the `except` ladder
of `eval`. -/
def evalNodeC (h : HostMath) (n : PyAst) : Except EvalError PyVal :=
  match evalNode h initState n with
  | .ok v => .ok v
  | .error e => .error (classify e)

/-- Python `float.is_integer` on the exact model. -/
def pyIsInteger (x : ℚ) : Bool := x.den = 1

/-- Python `round` on a float with no second argument: nearest integer,
ties to the even integer. -/
def pyRound (x : ℚ) : ℤ :=
  let f := ⌊x⌋
  let r := x - (f : ℚ)
  if r < 1 / 2 then f
  else if 1 / 2 < r then f + 1
  else if f % 2 = 0 then f else f + 1

/-- Round half to even to an integer, the rounding used when Python
formats a value with `%.6e` or `%.8g` (the decimal conversion of the
exact value rounds ties to even). -/
def rndHE (x : ℚ) : ℤ :=
  let f := ⌊x⌋
  let r := x - (f : ℚ)
  if r < 1 / 2 then f
  else if 1 / 2 < r then f + 1
  else if f % 2 = 0 then f else f + 1

/-- Number of decimal digits of `n` (1 for `0`), by fuel recursion so
that it evaluates in the kernel. -/
def ndcAux : Nat → Nat → Nat
  | 0, _ => 0
  | f + 1, n => if n < 10 then 1 else 1 + ndcAux f (n / 10)

/-- Number of decimal digits of a natural number. -/
def natDigitCount (n : Nat) : Nat := ndcAux (n + 1) n

/-- Floor of the base-10 logarithm of a positive rational: the unique
`d` with `10^d ≤ x < 10^(d+1)` (junk value `0` at non-positive input,
which the formatters never reach). -/
def log10Floor (x : ℚ) : ℤ :=
  if x ≤ 0 then 0
  else
    let d0 : ℤ := (natDigitCount x.num.natAbs : ℤ) - (natDigitCount x.den : ℤ)
    if (10 : ℚ) ^ d0 ≤ x then d0 else d0 - 1

/-- Left-pad a string with zeros to width `w`. -/
def padZeros (s : String) (w : Nat) : String :=
  String.mk (List.replicate (w - s.length) '0') ++ s

/-- Exponent suffix of Python scientific notation: a sign and at least
two digits, as in `e+06` or `e-123`. -/
def expSuffix (d : ℤ) : String :=
  (if d < 0 then "-" else "+") ++ padZeros (toString d.natAbs) 2

/-- Drop trailing zeros from a digit string. -/
def stripZeros (s : String) : String :=
  String.mk (s.data.reverse.dropWhile (fun c => c = '0')).reverse

/-- Python `f"{x:.6e}"` on the exact model: normalized scientific
notation with one leading digit and exactly six fractional digits,
rounding half to even, with the two-digit signed exponent suffix. -/
def formatSci6 (x : ℚ) : String :=
  if x = 0 then "0.000000e+00"
  else
    let sign := if x < 0 then "-" else ""
    let a := |x|
    let d := log10Floor a
    let k := rndHE (a * (10 : ℚ) ^ ((6 : ℤ) - d))
    let (d, k) := if k = 10 ^ 7 then (d + 1, (10 ^ 6 : ℤ)) else (d, k)
    let kn := k.toNat
    sign ++ toString (kn / 10 ^ 6) ++ "." ++ padZeros (toString (kn % 10 ^ 6)) 6 ++
      "e" ++ expSuffix d

/-- Python `f"{x:.8g}"` on the exact model: eight significant digits,
rounding half to even, fixed-point form for decimal exponents in
`[-4, 8)` and scientific form otherwise, trailing zeros (and a bare
decimal point) stripped. -/
def formatGen8 (x : ℚ) : String :=
  if x = 0 then "0"
  else
    let sign := if x < 0 then "-" else ""
    let a := |x|
    let d := log10Floor a
    let k := rndHE (a * (10 : ℚ) ^ ((7 : ℤ) - d))
    let (d, k) := if k = 10 ^ 8 then (d + 1, (10 ^ 7 : ℤ)) else (d, k)
    let kn := k.toNat
    if d < -4 ∨ 8 ≤ d then
      let frac := stripZeros (padZeros (toString (kn % 10 ^ 7)) 7)
      sign ++ toString (kn / 10 ^ 7) ++ (if frac = "" then "" else "." ++ frac) ++
        "e" ++ expSuffix d
    else if 0 ≤ d then
      let digits := padZeros (toString kn) 8
      let intPart := String.mk (digits.data.take (d.toNat + 1))
      let frac := stripZeros (String.mk (digits.data.drop (d.toNat + 1)))
      sign ++ intPart ++ (if frac = "" then "" else "." ++ frac)
    else
      let digits := stripZeros (padZeros (toString kn) 8)
      sign ++ "0." ++ String.mk (List.replicate (-d - 1).toNat '0') ++ digits

/-- Translation of `Calculator.format_result`: integer-valued results
print as the integer, results within `1e-10` of the rounded integer
print as that integer, and otherwise magnitudes at least `1e6` or at
most `1e-4` use `%.6e` while the rest use `%.8g`. -/
def format_result (result : ℚ) : String :=
  if pyIsInteger result then toString result.num
  else if |result - (pyRound result : ℚ)| < 1 / 10 ^ 10 then toString (pyRound result)
  else if 10 ^ 6 ≤ |result| ∨ |result| ≤ 1 / 10 ^ 4 then formatSci6 result
  else formatGen8 result

/-- Unfolding of `pyEval` through a successful parse: string evaluation
is node evaluation of the parsed tree under the `except` ladder. -/
theorem pyEval_parse_ok (h : HostMath) (s : String) (t : PyAst)
    (hp : pyParse (pyReplaceCaret s) = .ok t) :
    pyEval h s = evalNodeC h t := by
  have hdef : pyEval h s =
      (match (do evalNode h initState (← pyParse (pyReplaceCaret s)) : Except PyExc PyVal) with
       | .ok v => .ok v
       | .error e => .error (classify e)) := rfl
  rw [hdef, hp]
  rfl

/-- Unfolding of `pyEval` through a failing parse: the raised parse
exception is classified by the `except` ladder. -/
theorem pyEval_parse_err (h : HostMath) (s : String) (e : PyExc)
    (hp : pyParse (pyReplaceCaret s) = .error e) :
    pyEval h s = .error (classify e) := by
  have hdef : pyEval h s =
      (match (do evalNode h initState (← pyParse (pyReplaceCaret s)) : Except PyExc PyVal) with
       | .ok v => .ok v
       | .error e => .error (classify e)) := rfl
  rw [hdef, hp]
  rfl

/-- The cosine of a rational number is never zero: the zeros of cosine
are odd multiples of `π/2`, which are irrational.  This is why the
evaluator's `tan` can never be applied at a point where the real
tangent is undefined: every value the (float-modelled) evaluator can
pass to `tan` is rational. -/
theorem rat_cast_cos_ne_zero (x : ℚ) : Real.cos (x : ℝ) ≠ 0 := by
  intro hzero
  rw [Real.cos_eq_zero_iff] at hzero
  obtain ⟨k, hk⟩ := hzero
  have hden : ((2 * k + 1 : ℤ) : ℝ) ≠ 0 := by
    have : (2 * k + 1 : ℤ) ≠ 0 := by omega
    exact_mod_cast this
  have hpi : Real.pi = ((2 * x / (2 * (k : ℚ) + 1) : ℚ) : ℝ) := by
    push_cast
    push_cast at hden
    field_simp
    field_simp at hk
    linarith
  exact Rat.not_irrational _ (hpi ▸ irrational_pi)

/-- `round` at an integer is that integer. -/
theorem pyRound_intCast (n : ℤ) : pyRound (n : ℚ) = n := by
  norm_num [pyRound]

/-- C4: a division whose right operand evaluates to exactly zero is
classified as division by zero, whatever value the left operand took
(float or complex), and `evaluate(parse("1/0"))` fails with the
division-by-zero classification. -/
theorem div_by_zero_error (h : HostMath) (l r : PyAst) (v : PyVal)
    (hl : evalNode h initState l = .ok v)
    (hr : evalNode h initState r = .ok (.float 0)) :
    evalNodeC h (.binOp l .div r) = .error .divisionByZero ∧
    pyEval h "1/0" = .error .divisionByZero := by
  constructor
  · cases v <;> simp only [evalNodeC, evalNode, hl, hr] <;> rfl
  · rfl

/-- Witness for C4 at the concrete division `1/0`. -/
theorem div_by_zero_error_witness :
    evalNodeC host0 (.binOp (.constant (.num 1)) .div (.constant (.num 0))) =
      .error .divisionByZero ∧
    pyEval host0 "1/0" = .error .divisionByZero :=
  div_by_zero_error host0 (.constant (.num 1)) (.constant (.num 0))
    (.float 1) rfl rfl

/-- C10: a modulo whose right operand evaluates to exactly zero raises
`ZeroDivisionError` just like division, so `eval` classifies both
identically as division by zero; concretely `1%0` fails that way. -/
theorem mod_by_zero_same_as_div (h : HostMath) (l r : PyAst) (x : ℚ)
    (hl : evalNode h initState l = .ok (.float x))
    (hr : evalNode h initState r = .ok (.float 0)) :
    evalNodeC h (.binOp l .mod r) = .error .divisionByZero ∧
    evalNodeC h (.binOp l .mod r) = evalNodeC h (.binOp l .div r) ∧
    pyEval h "1%0" = .error .divisionByZero := by
  refine ⟨?_, ?_, rfl⟩ <;> simp only [evalNodeC, evalNode, hl, hr] <;> rfl

/-- Witness for C10 at the concrete modulo `1%0`. -/
theorem mod_by_zero_same_as_div_witness :
    evalNodeC host0 (.binOp (.constant (.num 1)) .mod (.constant (.num 0))) =
      .error .divisionByZero ∧
    pyEval host0 "1%0" = .error .divisionByZero := by
  have t := mod_by_zero_same_as_div host0 (.constant (.num 1)) (.constant (.num 0))
    1 rfl rfl
  exact ⟨t.1, t.2.2⟩

/-- C1: in every function-call evaluation, `sqrt` of a negative
argument and `log`/`log10` of a non-positive argument are classified as
domain errors; `tan` has no undefined point reachable by any evaluated
(rational-modelled float) argument, since the real tangent is undefined
exactly where cosine vanishes and cosine never vanishes at a rational;
and `evaluate(parse("sqrt(-4)"))` fails with the domain classification. -/
theorem functionCall_domain_errors (h : HostMath) (x : ℚ) (arg : PyAst)
    (harg : evalNode h initState arg = .ok (.float x)) :
    (x < 0 → evalNodeC h (.call (.name "sqrt") [arg] []) = .error .domainError) ∧
    (x ≤ 0 → evalNodeC h (.call (.name "log") [arg] []) = .error .domainError) ∧
    (x ≤ 0 → evalNodeC h (.call (.name "log10") [arg] []) = .error .domainError) ∧
    Real.cos (x : ℝ) ≠ 0 ∧
    pyEval h "sqrt(-4)" = .error .domainError := by
  refine ⟨fun hx => ?_, fun hx => ?_, fun hx => ?_, rat_cast_cos_ne_zero x, ?_⟩
  · have e1 : evalNode h initState (.call (.name "sqrt") [arg] []) =
        (evalNode h initState arg).bind (applyMathFn h .sqrt) := by
      rw [evalNode]; rfl
    unfold evalNodeC
    rw [e1, harg]
    simp only [Except.bind, applyMathFn]
    rw [if_pos hx]
    rfl
  · have e1 : evalNode h initState (.call (.name "log") [arg] []) =
        (evalNode h initState arg).bind (applyMathFn h .log) := by
      rw [evalNode]; rfl
    unfold evalNodeC
    rw [e1, harg]
    simp only [Except.bind, applyMathFn]
    rw [if_pos hx]
    rfl
  · have e1 : evalNode h initState (.call (.name "log10") [arg] []) =
        (evalNode h initState arg).bind (applyMathFn h .log10) := by
      rw [evalNode]; rfl
    unfold evalNodeC
    rw [e1, harg]
    simp only [Except.bind, applyMathFn]
    rw [if_pos hx]
    rfl
  · rw [pyEval_parse_ok h "sqrt(-4)" _ rfl]
    simp only [evalNodeC, evalNode]
    rfl

/-- Witness for C1 at the concrete argument `-4`. -/
theorem functionCall_domain_errors_witness :
    evalNodeC host0 (.call (.name "sqrt") [.constant (.num (-4))] []) = .error .domainError ∧
    evalNodeC host0 (.call (.name "log") [.constant (.num (-4))] []) = .error .domainError ∧
    evalNodeC host0 (.call (.name "log10") [.constant (.num (-4))] []) = .error .domainError ∧
    pyEval host0 "sqrt(-4)" = .error .domainError := by
  have t := functionCall_domain_errors host0 (-4) (.constant (.num (-4))) rfl
  exact ⟨t.1 (by norm_num), t.2.1 (by norm_num), t.2.2.1 (by norm_num), t.2.2.2.2⟩

/-- Counterexample to C6 as stated: supplying a keyword argument to a
whitelisted function with one positional argument is rejected with the
fixed keyword-arguments message, which names neither the function nor
its required arity. -/
theorem keyword_error_not_naming_function :
    pyEval host0 "sqrt(1, x=2)" = .error (.other "不支持关键字参数") ∧
    strContains "不支持关键字参数" "sqrt" = false ∧
    strContains "不支持关键字参数" "1" = false := by
  refine ⟨?_, rfl, rfl⟩
  rw [pyEval_parse_ok host0 "sqrt(1, x=2)" _ rfl]
  simp only [evalNodeC, evalNode]
  rfl

/-- C6 as amended: a whitelisted function called with an argument count
other than one fails with the arity message, which names the function
and the required arity of one; a call with one positional argument and
any keyword argument fails with the fixed keyword-arguments message
(which does not name the function); and `evaluate(parse("sqrt(1,2)"))`
fails with the arity classification naming `sqrt`. -/
theorem arity_and_keyword_rejection (h : HostMath) (f : String) (fn : MathFn)
    (args : List PyAst) (kws : List (String × PyAst))
    (hf : initState.allowed_functions.lookup f = some fn) :
    (args.length ≠ 1 → evalNode h initState (.call (.name f) args kws) =
      .error (.valueError ("函数 " ++ f ++ " 需要1个参数"))) ∧
    (∀ a kv ktl, args = [a] → kws = kv :: ktl →
      evalNode h initState (.call (.name f) args kws) =
        .error (.valueError "不支持关键字参数")) ∧
    pyEval h "sqrt(1,2)" = .error (.other ("函数 " ++ "sqrt" ++ " 需要1个参数")) := by
  refine ⟨fun hlen => ?_, fun a kv ktl ha hk => ?_, ?_⟩
  · match args, hlen with
    | [], _ => rw [evalNode, hf]
    | _ :: _ :: _, _ => rw [evalNode, hf]
    | [a], hlen => exact absurd rfl hlen
  · subst ha
    subst hk
    rw [evalNode, hf]
  · rw [pyEval_parse_ok h "sqrt(1,2)" _ rfl]
    simp only [evalNodeC, evalNode]
    rfl

/-- Witness for C6 (amended) at `sqrt` with two positional arguments and
with a keyword argument. -/
theorem arity_and_keyword_rejection_witness :
    evalNode host0 initState
        (.call (.name "sqrt") [.constant (.num 1), .constant (.num 2)] []) =
      .error (.valueError ("函数 " ++ "sqrt" ++ " 需要1个参数")) ∧
    evalNode host0 initState
        (.call (.name "sqrt") [.constant (.num 1)] [("x", .constant (.num 2))]) =
      .error (.valueError "不支持关键字参数") ∧
    pyEval host0 "sqrt(1,2)" = .error (.other ("函数 " ++ "sqrt" ++ " 需要1个参数")) := by
  have t1 := arity_and_keyword_rejection host0 "sqrt" .sqrt
    [.constant (.num 1), .constant (.num 2)] [] rfl
  have t2 := arity_and_keyword_rejection host0 "sqrt" .sqrt
    [.constant (.num 1)] [("x", .constant (.num 2))] rfl
  exact ⟨t1.1 (by decide), t2.2.1 _ _ _ rfl rfl, t1.2.2⟩

/-- C7: a call through the qualifier `math` evaluates exactly as the
unqualified call (whitelisted or not, and for any argument list), any
other qualifier is rejected with the unsupported-attribute-access
message before anything is evaluated, and the two concrete forms
`math.sqrt(16)`/`sqrt(16)` agree while `foo.sqrt(1)` fails with the
unsupported-attribute classification. -/
theorem math_qualifier_sugar (h : HostMath) (f attr : String) (q : PyAst)
    (args : List PyAst) (kws : List (String × PyAst))
    (hq : q ≠ PyAst.name "math") :
    (evalNode h initState (.call (.attribute (.name "math") f) args kws) =
      evalNode h initState (.call (.name f) args kws)) ∧
    (evalNode h initState (.call (.attribute q attr) args kws) =
      .error (.valueError ("不支持的属性访问：" ++ attr))) ∧
    pyEval h "math.sqrt(16)" = pyEval h "sqrt(16)" ∧
    pyEval h "foo.sqrt(1)" = .error (.other ("不支持的属性访问：" ++ "sqrt")) := by
  refine ⟨?_, ?_, ?_, ?_⟩
  · cases hlf : initState.allowed_functions.lookup f with
    | none =>
      simp only [evalNode, hlf]
      rfl
    | some fn =>
      simp only [evalNode, hlf]
      rfl
  · rcases q with c | m | ⟨op, a⟩ | ⟨l, op, r⟩ | ⟨g, as, ks⟩ | ⟨v, a2⟩ | es | ps |
      ⟨l, o, r⟩ | ⟨o, l, r⟩
    case name =>
      have hm : m ≠ "math" := fun hmm => hq (by rw [hmm])
      rw [evalNode, if_neg hm]
    all_goals rw [evalNode]
    all_goals exact nofun
  · rw [pyEval_parse_ok h "math.sqrt(16)" _ rfl, pyEval_parse_ok h "sqrt(16)" _ rfl]
    simp only [evalNodeC, evalNode]
    rfl
  · rw [pyEval_parse_ok h "foo.sqrt(1)" _ rfl]
    simp only [evalNodeC, evalNode]
    rfl

/-- Witness for C7 at `math.sqrt(16)` against `sqrt(16)` and at the
qualifier `foo`. -/
theorem math_qualifier_sugar_witness :
    (evalNode host0 initState
        (.call (.attribute (.name "math") "sqrt") [.constant (.num 16)] []) =
      evalNode host0 initState (.call (.name "sqrt") [.constant (.num 16)] [])) ∧
    (evalNode host0 initState
        (.call (.attribute (.name "foo") "sqrt") [.constant (.num 16)] []) =
      .error (.valueError ("不支持的属性访问：" ++ "sqrt"))) := by
  have t := math_qualifier_sugar host0 "sqrt" "sqrt" (.name "foo")
    [.constant (.num 16)] [] (by simp)
  exact ⟨t.1, t.2.1⟩

/-- C2 (against the spec): a `Pow` whose left operand evaluates to a
negative float and whose right operand evaluates to a non-integral
float does NOT fail — CPython `float.__pow__` delegates this case to
complex power, so evaluation returns the host's complex power value;
concretely `(-8)^0.5` evaluates to a complex number instead of failing
with the domain classification. -/
theorem pow_negative_fractional_returns_complex (h : HostMath) (st : EvaluatorState)
    (l r : PyAst) (x y : ℚ)
    (hl : evalNode h st l = .ok (.float x)) (hr : evalNode h st r = .ok (.float y))
    (hx : x < 0) (hy : y.den ≠ 1) :
    evalNode h st (.binOp l .pow r) =
      .ok (.complex (h.cpowVal (x, 0) (y, 0)).1 (h.cpowVal (x, 0) (y, 0)).2) ∧
    pyEval h "(-8)^0.5" =
      .ok (.complex (h.cpowVal (-8, 0) (1 / 2, 0)).1 (h.cpowVal (-8, 0) (1 / 2, 0)).2) := by
  constructor
  · have hy0 : ¬ ((y, (0 : ℚ)) = ((0 : ℚ), (0 : ℚ))) := by
      intro hc
      apply hy
      rw [show y = 0 from congrArg Prod.fst hc]
      rfl
    have hx0 : ¬ (((x, (0 : ℚ))) = ((0 : ℚ), (0 : ℚ))) := by
      intro hc
      have : x = 0 := congrArg Prod.fst hc
      rw [this] at hx
      exact absurd hx (by norm_num)
    rw [evalNode, hl, hr]
    show pyPow h (.float x) (.float y) = _
    rw [pyPow, if_neg hy, if_pos hx]
    unfold complexPow
    rw [if_neg hy0, if_neg hx0]
  · rw [pyEval_parse_ok h "(-8)^0.5" _ rfl]
    rfl

/-- Witness for C2 at `(-8) ** 0.5` under the concrete host `host0`. -/
theorem pow_negative_fractional_returns_complex_witness :
    evalNode host0 initState
        (.binOp (.unaryOp .usub (.constant (.num 8))) .pow (.constant (.num (1 / 2)))) =
      .ok (.complex 0 0) ∧
    pyEval host0 "(-8)^0.5" = .ok (.complex 0 0) := by
  have t := pow_negative_fractional_returns_complex host0 initState
    (.unaryOp .usub (.constant (.num 8))) (.constant (.num (1 / 2)))
    (-8) (1 / 2) rfl rfl (by norm_num) (by decide)
  exact ⟨t.1, t.2⟩

/-- C5: evaluation is exactly evaluation-after-rewriting of the input,
the rewriting is a character-local string homomorphism (hence
unconditional and context-free) sending `^` to `**` and fixing every
other character, and `evaluate(parse("2^10"))` is `1024.0`. -/
theorem caret_preprocessing (h : HostMath) :
    (∀ s : String, pyEval h s = pyEvalNoCaret h (pyReplaceCaret s)) ∧
    (∀ s t : String, pyReplaceCaret (s ++ t) = pyReplaceCaret s ++ pyReplaceCaret t) ∧
    pyReplaceCaret "^" = "**" ∧
    (∀ c : Char, c ≠ '^' → pyReplaceCaret (String.mk [c]) = String.mk [c]) ∧
    pyReplaceCaret "2^10" = "2**10" ∧
    pyEval h "2^10" = .ok (.float 1024) := by
  have hfold : ∀ (l acc : List Char),
      l.foldr (fun c acc => if c = '^' then '*' :: '*' :: acc else c :: acc) acc =
        l.foldr (fun c acc => if c = '^' then '*' :: '*' :: acc else c :: acc) [] ++ acc := by
    intro l
    induction l with
    | nil => intro acc; rfl
    | cons c tl ih =>
      intro acc
      show (if c = '^' then '*' :: '*' ::
              tl.foldr (fun c acc => if c = '^' then '*' :: '*' :: acc else c :: acc) acc
            else c ::
              tl.foldr (fun c acc => if c = '^' then '*' :: '*' :: acc else c :: acc) acc) =
          (if c = '^' then '*' :: '*' ::
              tl.foldr (fun c acc => if c = '^' then '*' :: '*' :: acc else c :: acc) []
            else c ::
              tl.foldr (fun c acc => if c = '^' then '*' :: '*' :: acc else c :: acc) []) ++ acc
      rw [ih acc]
      by_cases hc : c = '^'
      · rw [if_pos hc, if_pos hc]
        rfl
      · rw [if_neg hc, if_neg hc]
        rfl
  refine ⟨fun s => rfl, fun s t => ?_, rfl, fun c hc => ?_, rfl, rfl⟩
  · show String.mk ((s.data ++ t.data).foldr _ []) = _
    rw [List.foldr_append, hfold]
    rfl
  · show String.mk (if c = '^' then ['*', '*'] else [c]) = String.mk [c]
    rw [if_neg hc]

/-- C8: the `eval` method neither reads hidden state nor mutates the
evaluator — the returned state is the incoming state — and re-running
the same text on the evaluator state left by a first run produces the
identical outcome. -/
theorem eval_pure_idempotent (h : HostMath) (st : EvaluatorState) (s : String) :
    safeEval h st s = ((safeEval h st s).1, st) ∧
    safeEval h (safeEval h st s).2 s = safeEval h st s :=
  ⟨rfl, rfl⟩

/-- C9: `format_result` displays an integer-valued float as the exact
decimal string of that integer with no fractional part; a non-integer
result within `1e-10` of its rounded integer is displayed as that
integer's decimal string; otherwise magnitudes at least `1e6` or at most
`1e-4` take the six-fractional-digit scientific form and all other
magnitudes the eight-significant-digit general form; with the concrete
renderings of `1/20000`, `1/3` and `5 + 1e-11`. -/
theorem format_result_spec (n : ℤ) (x : ℚ) :
    format_result (n : ℚ) = toString n ∧
    (|x - (pyRound x : ℚ)| < 1 / 10 ^ 10 → format_result x = toString (pyRound x)) ∧
    (¬ |x - (pyRound x : ℚ)| < 1 / 10 ^ 10 →
      ((10 ^ 6 ≤ |x| ∨ |x| ≤ 1 / 10 ^ 4) → format_result x = formatSci6 x) ∧
      (¬ (10 ^ 6 ≤ |x| ∨ |x| ≤ 1 / 10 ^ 4) → format_result x = formatGen8 x)) ∧
    format_result (1 / 20000) = "5.000000e-05" ∧
    format_result (1 / 3) = "0.33333333" ∧
    format_result (5 + 1 / 10 ^ 11) = "5" := by
  have hcast : ∀ y : ℚ, y.den = 1 → (y.num : ℚ) = y := by
    intro y hy
    have hd := Rat.num_div_den y
    rw [hy] at hd
    simpa using hd
  have hround : ∀ y : ℚ, y.den = 1 → pyRound y = y.num := by
    intro y hy
    conv_lhs => rw [← hcast y hy]
    exact pyRound_intCast y.num
  have hfmtInt : ∀ y : ℚ, y.den = 1 → format_result y = toString y.num := by
    intro y hy
    have hb : pyIsInteger y = true := by simp [pyIsInteger, hy]
    unfold format_result
    rw [hb, if_pos rfl]
  have hfmt : ∀ y : ℚ, y.den ≠ 1 → format_result y =
      (if |y - (pyRound y : ℚ)| < 1 / 10 ^ 10 then toString (pyRound y)
       else if 10 ^ 6 ≤ |y| ∨ |y| ≤ 1 / 10 ^ 4 then formatSci6 y else formatGen8 y) := by
    intro y hy
    have hb : pyIsInteger y = false := by simp [pyIsInteger, hy]
    unfold format_result
    rw [hb, if_neg (by simp)]
  refine ⟨?_, fun hnear => ?_, fun hnear => ?_, by decide, by decide, by decide⟩
  · rw [hfmtInt (n : ℚ) (Rat.den_intCast n), Rat.num_intCast]
  · by_cases hint : x.den = 1
    · rw [hfmtInt x hint, hround x hint]
    · rw [hfmt x hint, if_pos hnear]
  · have hint : x.den ≠ 1 := by
      intro hd
      apply hnear
      rw [hround x hd, hcast x hd]
      norm_num
    constructor
    · intro hmag
      rw [hfmt x hint, if_neg hnear, if_pos hmag]
    · intro hmag
      rw [hfmt x hint, if_neg hnear, if_neg hmag]

/-- Counterexample to C3 as stated: the list literal `[1, 2]` is not
rejected with the syntax-error classification — it parses in the host's
`eval` mode and the evaluator's defensive catch-all rejects the `List`
node with an unsupported-construct message that `eval` re-raises
unchanged, a different classification from the syntax error. -/
theorem list_literal_not_syntax_error :
    pyEval host0 "[1, 2]" = .error (.other ("不支持的 AST 节点类型：" ++ "List")) ∧
    EvalError.other ("不支持的 AST 节点类型：" ++ "List") ≠ EvalError.syntaxError :=
  ⟨rfl, by decide⟩

/-- C3 as amended: inputs that are not a single expression of the host
grammar (assignments, statement separators, multiple statements) fail
with the syntax-error classification; string, list and dict literals,
comparison and boolean operators, and bare attribute access parse but
are rejected by the evaluator with unsupported-construct messages
(non-`math` qualified calls with the unsupported-attribute message),
re-raised under their own classification rather than the syntax one; and
no evaluation mutates the evaluator's state. -/
theorem outside_grammar_rejection (h : HostMath) :
    pyEval h "x = 1" = .error .syntaxError ∧
    pyEval h "1; 2" = .error .syntaxError ∧
    pyEval h "'abc'" = .error (.other ("不支持的常量类型：" ++ "str")) ∧
    pyEval h "[1, 2]" = .error (.other ("不支持的 AST 节点类型：" ++ "List")) ∧
    pyEval h "\x7b1: 2\x7d" = .error (.other ("不支持的 AST 节点类型：" ++ "Dict")) ∧
    pyEval h "1 < 2" = .error (.other ("不支持的 AST 节点类型：" ++ "Compare")) ∧
    pyEval h "1 and 2" = .error (.other ("不支持的 AST 节点类型：" ++ "BoolOp")) ∧
    pyEval h "a.b" = .error (.other ("不支持的 AST 节点类型：" ++ "Attribute")) ∧
    pyEval h "foo.sqrt(1)" = .error (.other ("不支持的属性访问：" ++ "sqrt")) ∧
    (∀ st s, (safeEval h st s).2 = st) := by
  refine ⟨rfl, rfl, rfl, rfl, rfl, rfl, rfl, rfl, ?_, fun _ _ => rfl⟩
  rw [pyEval_parse_ok h "foo.sqrt(1)" _ rfl]
  simp only [evalNodeC, evalNode]
  rfl

end DailyNote
